import Mathlib

/-!
Verification model of the local multi-database persistence and synchronization
core of the essenmelia event tracker (src/App.tsx, src/types.ts).

Modelling conventions:
* JavaScript `Date` values are epoch milliseconds (`Int`); `new Date(x)` from a
  stored timestamp denotes the same instant, so date revival is a pointwise
  record rebuild.
* A `File` (binary image payload) is an opaque handle (`Nat`).
* IndexedDB is a total map from database name to a per-database record of the
  persisted collections plus the `isSeeded` metadata flag.
* Asynchronous storage operations that can fail with an engine error are given
  an explicit success oracle (`Bool`); on the failure branch the model performs
  the same state updates as the source's `catch` handler.
-/

namespace Essenmelia

/-- `ProgressStep` from src/types.ts. -/
structure ProgressStep where
  id : String
  description : String
  timestamp : Int
  completed : Bool
deriving DecidableEq

/-- `Event` from src/types.ts. -/
structure Event where
  id : String
  title : String
  description : String
  createdAt : Int
  steps : List ProgressStep
  imageUrl : Option String
  tags : Option (List String)
  hasOriginalImage : Option Bool
deriving DecidableEq

/-- `StepTemplate` from src/types.ts. -/
structure StepTemplate where
  id : String
  description : String
deriving DecidableEq

/-- `StepSetTemplateStep` from src/types.ts. -/
structure StepSetTemplateStep where
  id : String
  description : String
deriving DecidableEq

/-- `StepSetTemplate` from src/types.ts. -/
structure StepSetTemplate where
  id : String
  name : String
  steps : List StepSetTemplateStep
deriving DecidableEq

/-- The `File | 'remove'` image payload carried by an `UPDATE_EVENT` action. -/
inductive ImagePayload where
  | file (data : Nat)
  | remove
deriving DecidableEq

/-- `PendingAction` from src/App.tsx (lines 374-382). -/
inductive PendingAction where
  | addEvent (event : Event) (originalImage : Option Nat)
  | updateEvent (event : Event) (originalImage : Option ImagePayload)
  | deleteEvent (eventId : String)
  | updateEventSteps (eventId : String) (steps : List ProgressStep)
  | addTag (tag : String)
  | deleteTags (tags : List String)
  | renameTag (oldTag : String) (newTag : String)
  | reorderTags (tags : List String)
deriving DecidableEq

/-- One iteration of the `actions.forEach` loop in `applyPendingActions`
(src/App.tsx lines 535-546): the state is the pair
(processedEvents, processedTags). -/
def applyOneAction (st : List Event × List String) (action : PendingAction) :
    List Event × List String :=
  match action with
  | .addEvent e _ =>
      if st.1.any (fun x => x.id == e.id) then st else (e :: st.1, st.2)
  | .updateEvent e _ =>
      (st.1.map (fun x => if x.id == e.id then e else x), st.2)
  | .deleteEvent eventId =>
      (st.1.filter (fun x => x.id != eventId), st.2)
  | .updateEventSteps eventId steps =>
      (st.1.map (fun x => if x.id == eventId then { x with steps := steps } else x), st.2)
  | .addTag t =>
      if st.2.contains t then st else (st.1, st.2 ++ [t])
  | .deleteTags ts =>
      (st.1.map (fun e => { e with tags := e.tags.map (fun tgs => tgs.filter (fun t => !ts.contains t)) }),
       st.2.filter (fun t => !ts.contains t))
  | .renameTag oldTag newTag =>
      (st.1.map (fun e => { e with tags := e.tags.map (fun tgs => tgs.map (fun t => if t == oldTag then newTag else t)) }),
       st.2.map (fun t => if t == oldTag then newTag else t))
  | .reorderTags ts =>
      (st.1, ts)

/-- `applyPendingActions` from src/App.tsx (lines 531-548): the pure fold of an
ordered action list over a base snapshot of events and tags. -/
def applyPendingActions (baseEvents : List Event) (baseTags : List String)
    (actions : List PendingAction) : List Event × List String :=
  actions.foldl applyOneAction (baseEvents, baseTags)

/-- The database naming prefix from src/App.tsx line 35 (`essenmelia-db`). -/
def dbNamePrefixStr : String := "essenmelia-db"

/-- Modelled from the spec: the concrete reserved names `DEFAULT_DB_NAME_EXPORT`,
`DEMO_DB_NAME_EXPORT` and `TEMP_STORAGE_DB_NAME_EXPORT` are exported by the
`DatabaseManagerModal` UI module, which is not under src/. The spec says three
reserved names denote the default, demo and volatile/non-persistent databases,
distinguished from each other and found by the fixed prefix; we fix three
distinct concrete names under the source's prefix. -/
def DEFAULT_DB_NAME : String := "essenmelia-db-default"

/-- Modelled from the spec: see `DEFAULT_DB_NAME`. -/
def DEMO_DB_NAME : String := "essenmelia-db-demo"

/-- Modelled from the spec: see `DEFAULT_DB_NAME`. The volatile temporary mode
marker name. -/
def TEMP_STORAGE_DB_NAME : String := "essenmelia-db-temp"

/-- `SETTINGS_DB_NAME` from src/App.tsx line 38. -/
def SETTINGS_DB_NAME : String := "essenmelia-db-settings"

/-- `reviveEventDates` from src/App.tsx (lines 358-365). With timestamps
modelled as epoch milliseconds, `new Date(x)` denotes the same instant as `x`,
so the revival is the pointwise rebuild of the record. -/
def reviveEventDates (event : Event) : Event :=
  { event with
    createdAt := event.createdAt,
    steps := event.steps.map (fun step => { step with timestamp := step.timestamp }) }

/-- `tutorialEvent` from src/App.tsx (lines 199-217); its dates are
`new Date()` at module initialization, modelled by the parameter `now`.
The step descriptions are long Chinese strings whose exact contents no claim
depends on; they are kept as short distinct stand-ins. -/
def tutorialEvent (now : Int) : Event :=
  { id := "event-tutorial-1",
    title := "应用导览：探索您的工作区",
    description := "这是一个快速导览，帮助您熟悉应用的主要功能区域。",
    createdAt := now,
    tags := some ["教程"],
    steps :=
      [ { id := "step-tutorial-1", description := "顶部导航栏", timestamp := now, completed := false },
        { id := "step-tutorial-2", description := "筛选器", timestamp := now, completed := false },
        { id := "step-tutorial-3", description := "事件列表", timestamp := now, completed := false },
        { id := "step-tutorial-4", description := "添加按钮", timestamp := now, completed := false },
        { id := "step-tutorial-5", description := "事件详情", timestamp := now, completed := false },
        { id := "step-tutorial-6", description := "快速更新", timestamp := now, completed := false },
        { id := "step-tutorial-7", description := "步骤编辑器", timestamp := now, completed := false },
        { id := "step-tutorial-8", description := "数据与设置", timestamp := now, completed := false },
        { id := "step-tutorial-9", description := "教程完成", timestamp := now, completed := false } ],
    imageUrl := some "https://images.unsplash.com/photo-1543286386-713bdd548da4?q=80&w=2070&auto=format&fit=crop",
    hasOriginalImage := none }

/-- `demoEvents` from src/App.tsx (lines 219-335): the fixed built-in demo
dataset. Fixed ISO dates are their epoch-millisecond values; `new Date()`
timestamps are the module-initialization time `now`. Long Chinese descriptions
are kept as shortened stand-ins (no claim depends on their contents). -/
def demoEvents (now : Int) : List Event :=
  [ { id := "event-1", title := "上线新网站", description := "完成公司新网站上线的所有阶段",
      createdAt := 1696150800000,
      steps :=
        [ { id := "step-1-1", description := "完成 UI/UX 设计模型", timestamp := 1696514400000, completed := true },
          { id := "step-1-2", description := "开发前端组件", timestamp := 1697392800000, completed := true },
          { id := "step-1-3", description := "与后端 API 集成", timestamp := 1697976000000, completed := false },
          { id := "step-1-4", description := "进行用户验收测试", timestamp := 1698508800000, completed := false } ],
      imageUrl := some "https://images.unsplash.com/photo-1559028006-44d053215926?q=80&w=2070&auto=format&fit=crop",
      tags := some ["重要", "网页开发"], hasOriginalImage := none },
    { id := "event-2", title := "第四季度营销活动", description := "策划并执行假日季的营销活动。",
      createdAt := 1695207600000,
      steps :=
        [ { id := "step-2-1", description := "定义活动目标和关键绩效指标", timestamp := 1695636000000, completed := true },
          { id := "step-2-2", description := "创作广告素材和文案", timestamp := 1696258800000, completed := true } ],
      imageUrl := some "https://images.unsplash.com/photo-1504868584819-f8e8b4b6d7e3?q=80&w=2076&auto=format&fit=crop",
      tags := some ["营销"], hasOriginalImage := none },
    { id := "event-3", title := "移动应用重构", description := "重构 iOS 和 Android 移动应用的旧代码库。",
      createdAt := 1698832800000, steps := [], imageUrl := none,
      tags := some ["技术债", "移动开发"], hasOriginalImage := none },
    { id := "event-4", title := "计划公司年度静修", description := "组织一次年度静修活动",
      createdAt := 1699178400000,
      steps :=
        [ { id := "step-4-1", description := "调查团队偏好", timestamp := now, completed := true },
          { id := "step-4-2", description := "研究和预订场地", timestamp := now, completed := true },
          { id := "step-4-3", description := "规划活动日程", timestamp := now, completed := false } ],
      imageUrl := none, tags := some ["公司文化", "活动策划"], hasOriginalImage := none },
    { id := "event-5", title := "撰写并出版一本电子书", description := "完成电子书的整个流程",
      createdAt := 1692093600000,
      steps :=
        [ { id := "step-5-1", description := "创建详细大纲", timestamp := now, completed := true },
          { id := "step-5-2", description := "撰写第一稿", timestamp := now, completed := true },
          { id := "step-5-3", description := "编辑和校对", timestamp := now, completed := true },
          { id := "step-5-4", description := "设计封面和排版", timestamp := now, completed := false },
          { id := "step-5-5", description := "在平台上发布", timestamp := now, completed := false } ],
      imageUrl := none, tags := some ["个人项目", "写作"], hasOriginalImage := none },
    { id := "event-6", title := "马拉松训练", description := "遵循为期16周的训练计划",
      createdAt := 1696932000000,
      steps :=
        [ { id := "step-6-1", description := "完成第1-4周的基础训练", timestamp := now, completed := true },
          { id := "step-6-2", description := "完成第5-8周的里程累积", timestamp := now, completed := false } ],
      imageUrl := some "https://images.unsplash.com/photo-1571019613454-1cb2f99b2d8b?q=80&w=2070&auto=format&fit=crop",
      tags := some ["健康", "个人项目"], hasOriginalImage := none },
    { id := "event-7", title := "学习一门新语言：西班牙语", description := "达到会话流利水平",
      createdAt := 1693562400000,
      steps :=
        [ { id := "step-7-1", description := "完成 Duolingo 基础课程", timestamp := now, completed := true },
          { id := "step-7-2", description := "与语言伙伴进行10次会话", timestamp := now, completed := false } ],
      imageUrl := none, tags := some ["学习", "个人发展"], hasOriginalImage := none },
    { id := "event-8", title := "装修厨房", description := "管理厨房装修项目",
      createdAt := 1699783200000, steps := [],
      imageUrl := some "https://images.unsplash.com/photo-1556912173-3bb406ef7e77?q=80&w=2070&auto=format&fit=crop",
      tags := some ["家居", "重要"], hasOriginalImage := none },
    { id := "event-9", title := "建立一个个人作品集网站", description := "创建一个展示我作品的现代网站",
      createdAt := 1698228000000,
      steps :=
        [ { id := "step-9-1", description := "设计网站线框图", timestamp := now, completed := true },
          { id := "step-9-2", description := "开发可重用组件", timestamp := now, completed := false },
          { id := "step-9-3", description := "部署到 Vercel", timestamp := now, completed := false } ],
      imageUrl := none, tags := some ["网页开发", "个人项目"], hasOriginalImage := none },
    { id := "event-10", title := "组织数字文件", description := "整理和归档所有数字文件",
      createdAt := 1700042400000,
      steps := [ { id := "step-10-1", description := "分类所有文件", timestamp := now, completed := false } ],
      imageUrl := none, tags := some ["效率", "整理"], hasOriginalImage := none } ]

/-- `demoTags` from src/App.tsx line 337: the deduplicated flat-map of the demo
events' tags in first-occurrence order (JavaScript `Set` iteration order). -/
def jsSetDedupStr (xs : List String) : List String :=
  xs.foldl (fun acc x => if acc.contains x then acc else acc ++ [x]) []

/-- `demoTags` from src/App.tsx line 337. -/
def demoTags (now : Int) : List String :=
  jsSetDedupStr ((demoEvents now).flatMap (fun e => e.tags.getD []))

/-- `demoStepTemplates` from src/App.tsx (lines 338-342). -/
def demoStepTemplates : List StepTemplate :=
  [ { id := "template-1", description := "计划会议" },
    { id := "template-2", description := "发送跟进邮件" },
    { id := "template-3", description := "部署到生产环境" } ]

/-- `demoStepSetTemplates` from src/App.tsx (lines 343-356). -/
def demoStepSetTemplates : List StepSetTemplate :=
  [ { id := "set-1", name := "标准网页发布流程",
      steps :=
        [ { id := "set-1-step-1", description := "需求评审" },
          { id := "set-1-step-2", description := "UI/UX 设计" },
          { id := "set-1-step-3", description := "前端开发" },
          { id := "set-1-step-4", description := "后端开发" },
          { id := "set-1-step-5", description := "测试" },
          { id := "set-1-step-6", description := "部署" } ] } ]

/-- The persisted contents of one named IndexedDB database: the four
collections written by the app plus the `isSeeded` metadata flag
(src/App.tsx `STORES` and `getMetadata`/`saveMetadata` usage). -/
structure StoredDb where
  events : List Event
  tags : List String
  stepTemplates : List StepTemplate
  stepSetTemplates : List StepSetTemplate
  seeded : Bool
deriving DecidableEq

/-- A database that has never been written: empty collections, not seeded. -/
def emptyStoredDb : StoredDb :=
  { events := [], tags := [], stepTemplates := [], stepSetTemplates := [], seeded := false }

/-- The IndexedDB world: a total map from database name to stored contents. -/
def World : Type := String → StoredDb

/-- Replace one database's stored contents. -/
def World.update (w : World) (name : String) (db : StoredDb) : World :=
  fun n => if n == name then db else w n

/-- The in-memory snapshot returned by `loadData`. -/
structure LoadedData where
  events : List Event
  tags : List String
  stepTemplates : List StepTemplate
  stepSetTemplates : List StepSetTemplate
deriving DecidableEq

/-- `loadData` from src/App.tsx (lines 619-672). The demo branch returns a
fresh deep copy of the fixed dataset (copying is the identity in a pure
model). A never-seeded database is seeded (the default database with the
tutorial content, any other with empty collections) and the `isSeeded` flag
persisted; an already-seeded database is read directly. `now` is the module
initialization time used by the seeded tutorial content. -/
def loadData (w : World) (now : Int) (dbToLoad : String) : LoadedData × World :=
  if dbToLoad == DEMO_DB_NAME then
    ({ events := demoEvents now, tags := demoTags now,
       stepTemplates := demoStepTemplates, stepSetTemplates := demoStepSetTemplates }, w)
  else
    let db := w dbToLoad
    if !db.seeded && dbToLoad == DEFAULT_DB_NAME then
      let startupEvents := [tutorialEvent now]
      let startupTags := ["教程"]
      ({ events := startupEvents, tags := startupTags, stepTemplates := [], stepSetTemplates := [] },
       w.update dbToLoad
         { events := startupEvents, tags := startupTags,
           stepTemplates := [], stepSetTemplates := [], seeded := true })
    else if !db.seeded then
      ({ events := [], tags := [], stepTemplates := [], stepSetTemplates := [] },
       w.update dbToLoad
         { events := [], tags := [], stepTemplates := [], stepSetTemplates := [], seeded := true })
    else
      ({ events := db.events, tags := db.tags,
         stepTemplates := db.stepTemplates, stepSetTemplates := db.stepSetTemplates }, w)

/-- `saveDataToDb` from src/App.tsx (lines 550-558): writes all four
collections to the named database, unless it is the demo or the temporary
database (in which case it is a no-op). -/
def saveDataToDb (w : World) (dbName : String) (eventsToSave : List Event)
    (tagsToSave : List String) (templatesToSave : List StepTemplate)
    (setsToSave : List StepSetTemplate) : World :=
  if dbName == DEMO_DB_NAME || dbName == TEMP_STORAGE_DB_NAME then w
  else
    w.update dbName
      { w dbName with
        events := eventsToSave, tags := tagsToSave,
        stepTemplates := templatesToSave, stepSetTemplates := setsToSave }

/-- The type of a transient `dbStatus` banner (src/App.tsx line 457). -/
inductive StatusType where
  | loading
  | success
  | error
  | info
deriving DecidableEq

/-- The event status filter of `ActiveFilters` (src/App.tsx lines 369-372). -/
inductive StatusFilter where
  | all
  | inProgress
  | completed
deriving DecidableEq

/-- The persistence-core state of the application: the React state fields of
src/App.tsx that the spec's core owns (active database name, in-memory
snapshot, pending-action queue, degraded flag `dbError`, transient status,
view filters), together with the IndexedDB world and the persisted
`localStorage` active-name preference. UI-only state (modals, selection,
scroll) is outside the core per the spec's scope; `confirmDiscardChanges`
is kept because `handleSwitchDb` branches through it. -/
structure AppState where
  activeDbName : String
  events : List Event
  customTags : List String
  stepTemplates : List StepTemplate
  stepSetTemplates : List StepSetTemplate
  pendingActions : List PendingAction
  dbError : Bool
  dbStatus : Option StatusType
  stores : World
  storedActiveDbName : Option String
  confirmDiscardChanges : Option String
  filterStatus : StatusFilter
  filterTags : List String
  searchQuery : String

/-- The guard of the sync effect (src/App.tsx line 803): a flush is attempted
only when not loading, not in temporary-storage mode, not degraded, and the
queue is non-empty. -/
def syncGuard (s : AppState) (isLoading : Bool) : Bool :=
  !isLoading && !(s.activeDbName == TEMP_STORAGE_DB_NAME) && !s.dbError
    && !s.pendingActions.isEmpty

/-- The world after `performSync`'s combined write: `saveDataInStore` of the
folded events and `saveTagsInStore` of the folded tags (src/App.tsx lines
817-819). The per-action original-image side writes touch only the
`originalImages` store, which holds no field modelled here. -/
def syncWriteStores (w : World) (dbName : String) (evs : List Event)
    (tags : List String) : World :=
  w.update dbName { w dbName with events := evs, tags := tags }

/-- `performSync` from src/App.tsx (lines 810-851). Folds the queue over the
in-memory snapshot; for a non-demo database attempts the combined
persistence write, whose success is the oracle `saveOk` (for the demo
database no write is attempted, so no failure can occur). On success the
folded snapshot is adopted, the queue cleared, the degraded flag cleared and
a success status raised; on failure the queue and snapshot are left
untouched, the degraded flag is raised and an error status reported. The
transient leading `loading` status is not modelled (only the final status of
the flush is). -/
def performSync (s : AppState) (saveOk : Bool) : AppState :=
  let folded := applyPendingActions s.events s.customTags s.pendingActions
  if s.activeDbName == DEMO_DB_NAME then
    { s with events := folded.1, customTags := folded.2, pendingActions := [],
             dbError := false, dbStatus := some .success }
  else if saveOk then
    { s with stores := syncWriteStores s.stores s.activeDbName folded.1 folded.2,
             events := folded.1, customTags := folded.2, pendingActions := [],
             dbError := false, dbStatus := some .success }
  else
    { s with dbError := true, dbStatus := some .error }

/-- `handleSwitchDb` from src/App.tsx (lines 1445-1545). `ioOk` is the success
oracle for the storage operations of the `try` block (load and, on the merge
path, the combined save); on failure the `catch` handler raises the degraded
flag and keeps the queue. `now` is the module-initialization time consumed by
possible first-run seeding inside `loadData`. -/
def handleSwitchDb (s : AppState) (newDbName : String) (now : Int) (ioOk : Bool) :
    AppState :=
  if newDbName == s.activeDbName then s
  else
    let cameFromPassiveTemp := s.dbError
    let hasUnsyncedChanges := !s.pendingActions.isEmpty
    if (newDbName == DEMO_DB_NAME || newDbName == TEMP_STORAGE_DB_NAME) &&
        cameFromPassiveTemp && hasUnsyncedChanges then
      { s with confirmDiscardChanges := some newDbName }
    else if newDbName == TEMP_STORAGE_DB_NAME then
      { s with activeDbName := TEMP_STORAGE_DB_NAME, storedActiveDbName := none,
               events := [], customTags := [], stepTemplates := [], stepSetTemplates := [],
               pendingActions := [], dbError := false, dbStatus := some .info,
               filterStatus := .all, filterTags := [], searchQuery := "" }
    else if !ioOk then
      { s with dbError := true, dbStatus := none }
    else if cameFromPassiveTemp && hasUnsyncedChanges then
      let loaded := loadData s.stores now newDbName
      let targetDbData := loaded.1
      let folded := applyPendingActions (targetDbData.events.map reviveEventDates)
        targetDbData.tags s.pendingActions
      let w2 := saveDataToDb loaded.2 newDbName folded.1 folded.2
        targetDbData.stepTemplates targetDbData.stepSetTemplates
      { s with stores := w2,
               events := folded.1, customTags := folded.2,
               stepTemplates := targetDbData.stepTemplates,
               stepSetTemplates := targetDbData.stepSetTemplates,
               activeDbName := newDbName, storedActiveDbName := some newDbName,
               dbError := false, pendingActions := [], dbStatus := some .success,
               filterStatus := .all, filterTags := [], searchQuery := "" }
    else
      let loaded := loadData s.stores now newDbName
      let loadedData := loaded.1
      { s with stores := loaded.2,
               events := loadedData.events.map reviveEventDates,
               customTags := loadedData.tags,
               stepTemplates := loadedData.stepTemplates,
               stepSetTemplates := loadedData.stepSetTemplates,
               activeDbName := newDbName, storedActiveDbName := some newDbName,
               dbError := false, pendingActions := [], dbStatus := some .success,
               filterStatus := .all, filterTags := [], searchQuery := "" }

/-- The queue filtering performed by `handleUpdateEvent` when it enqueues an
`UPDATE_EVENT` (src/App.tsx line 1052): whether `a` is a queued update-event
for the given event id. -/
def isUpdateEventFor (a : PendingAction) (eventId : String) : Bool :=
  match a with
  | .updateEvent e _ => e.id == eventId
  | _ => false

/-- The enqueue step of `handleUpdateEvent` in the deferred branch
(src/App.tsx line 1052): previously queued update-events for the same id are
filtered out and the fresh action is appended. -/
def enqueueUpdateEvent (prev : List PendingAction) (finalEvent : Event)
    (originalImage : Option ImagePayload) : List PendingAction :=
  prev.filter (fun a => !(isUpdateEventFor a finalEvent.id))
    ++ [.updateEvent finalEvent originalImage]

/-- The active-database selection of `initializeApp` (src/App.tsx lines
728-753), as a function of the persisted `hasLaunchedBefore` flag, the
discovered database list and the persisted `activeDbName` preference
(`none` models an absent key; JavaScript also treats the empty string as
absent because it is falsy). Returns the chosen active name, the possibly
extended discovered list, and the new persisted preference. -/
structure InitDecision where
  activeDb : String
  detectedDbNames : List String
  storedActiveDbName : Option String
deriving DecidableEq

/-- See `InitDecision`. -/
def startupChooseActiveDb (hasLaunchedBefore : Bool) (detected : List String)
    (storedActiveDb : Option String) : InitDecision :=
  if !hasLaunchedBefore then
    let detected2 :=
      if detected.contains DEFAULT_DB_NAME then detected else DEFAULT_DB_NAME :: detected
    { activeDb := DEFAULT_DB_NAME, detectedDbNames := detected2,
      storedActiveDbName := some DEFAULT_DB_NAME }
  else if detected.isEmpty then
    { activeDb := TEMP_STORAGE_DB_NAME, detectedDbNames := detected,
      storedActiveDbName := none }
  else
    let fallback :=
      ((detected.find? (fun name => name == DEFAULT_DB_NAME)).getD (detected.headD ""))
    match storedActiveDb with
    | none =>
        { activeDb := fallback, detectedDbNames := detected,
          storedActiveDbName := some fallback }
    | some stored =>
        if stored == "" || !detected.contains stored then
          { activeDb := fallback, detectedDbNames := detected,
            storedActiveDbName := some fallback }
        else
          { activeDb := stored, detectedDbNames := detected,
            storedActiveDbName := some stored }

/-- The fixed startup precedence in the spec's words (section 4.2): previously
active name if still a valid discovered database, else the default name if
present, else the first discovered name, else volatile mode when none exist.
Stated from the spec, to be compared with `startupChooseActiveDb`. -/
def specStartupFallback (detected : List String) : String :=
  if DEFAULT_DB_NAME ∈ detected then DEFAULT_DB_NAME
  else
    match detected with
    | [] => TEMP_STORAGE_DB_NAME
    | d :: _ => d

/-- See `specStartupFallback`. -/
def specStartupPrecedence (detected : List String) (stored : Option String) : String :=
  match stored with
  | some s => if s ∈ detected then s else specStartupFallback detected
  | none => specStartupFallback detected

/-- The `data` payload of an exported snapshot document (src/App.tsx lines
1244-1262). -/
structure ExportPayload where
  events : List Event
  tags : List String
  stepTemplates : List StepTemplate
  stepSetTemplates : List StepSetTemplate
deriving DecidableEq

/-- The exported JSON document `\x7bversion, exportedAt, data\x7d`
(src/App.tsx line 1262). -/
structure ExportDoc where
  version : Nat
  exportedAt : Int
  data : ExportPayload
deriving DecidableEq

/-- `handleExportData` from src/App.tsx (lines 1238-1275): refused for the
demo database; in temporary or degraded mode the in-memory snapshot is
exported, otherwise the four persisted collections of the active database are
read and exported. `now` is the export time. -/
def handleExportData (s : AppState) (now : Int) : Option ExportDoc :=
  if s.activeDbName == DEMO_DB_NAME && !(s.activeDbName == TEMP_STORAGE_DB_NAME) then
    none
  else
    let payload : ExportPayload :=
      if s.activeDbName == TEMP_STORAGE_DB_NAME || s.dbError then
        { events := s.events, tags := s.customTags,
          stepTemplates := s.stepTemplates, stepSetTemplates := s.stepSetTemplates }
      else
        let db := s.stores s.activeDbName
        { events := db.events, tags := db.tags,
          stepTemplates := db.stepTemplates, stepSetTemplates := db.stepSetTemplates }
    some { version := 1, exportedAt := now, data := payload }

/-- A parsed imported document before validation: each collection of
`importedJson.data` may be missing (src/App.tsx lines 1291-1292, where a
missing field is falsy and rejected; a present array, even empty, is truthy). -/
structure ImportedDoc where
  events : Option (List Event)
  tags : Option (List String)
  stepTemplates : Option (List StepTemplate)
  stepSetTemplates : Option (List StepSetTemplate)
deriving DecidableEq

/-- JSON serialization round-trip of an exported document into the shape
`executeImport` reads: every collection is present. -/
def toImportedDoc (d : ExportDoc) : ImportedDoc :=
  { events := some d.data.events, tags := some d.data.tags,
    stepTemplates := some d.data.stepTemplates,
    stepSetTemplates := some d.data.stepSetTemplates }

/-- `generateNewId` (src/App.tsx line 1296) produces
`prefixText-Date.now()-randomSuffix`. The stream of identifiers generated by
successive calls is modelled as an abstract supply `fresh : Nat → String`;
the n-th call during an import returns `fresh n`. Non-collision of the
random identifiers is expressed as injectivity of the supply where a claim
needs it. `regenSteps` regenerates the step ids of one event, consuming one
supply index per step and resetting each timestamp to the import time
(src/App.tsx lines 1303-1308). -/
def regenSteps (fresh : Nat → String) (now : Int) (n : Nat) :
    List ProgressStep → List ProgressStep × Nat
  | [] => ([], n)
  | step :: rest =>
      let step2 := { step with id := fresh n, timestamp := now }
      let r := regenSteps fresh now (n + 1) rest
      (step2 :: r.1, r.2)

/-- Regeneration of imported events (src/App.tsx lines 1298-1309): each event
gets a fresh id and `createdAt := now`, then its steps are regenerated in
order. -/
def regenEvents (fresh : Nat → String) (now : Int) (n : Nat) :
    List Event → List Event × Nat
  | [] => ([], n)
  | event :: rest =>
      let stepsR := regenSteps fresh now (n + 1) event.steps
      let event2 := { event with id := fresh n, createdAt := now, steps := stepsR.1 }
      let restR := regenEvents fresh now stepsR.2 rest
      (event2 :: restR.1, restR.2)

/-- Regeneration of imported step templates (src/App.tsx lines 1311-1314). -/
def regenStepTemplates (fresh : Nat → String) (n : Nat) :
    List StepTemplate → List StepTemplate × Nat
  | [] => ([], n)
  | t :: rest =>
      let t2 := { t with id := fresh n }
      let r := regenStepTemplates fresh (n + 1) rest
      (t2 :: r.1, r.2)

/-- Regeneration of the steps of one imported step-set template
(src/App.tsx lines 1319-1322). -/
def regenSetSteps (fresh : Nat → String) (n : Nat) :
    List StepSetTemplateStep → List StepSetTemplateStep × Nat
  | [] => ([], n)
  | step :: rest =>
      let step2 := { step with id := fresh n }
      let r := regenSetSteps fresh (n + 1) rest
      (step2 :: r.1, r.2)

/-- Regeneration of imported step-set templates (src/App.tsx lines
1316-1323): each set gets a fresh id, then its steps are regenerated. -/
def regenStepSetTemplates (fresh : Nat → String) (n : Nat) :
    List StepSetTemplate → List StepSetTemplate × Nat
  | [] => ([], n)
  | set :: rest =>
      let stepsR := regenSetSteps fresh (n + 1) set.steps
      let set2 := { set with id := fresh n, steps := stepsR.1 }
      let restR := regenStepSetTemplates fresh stepsR.2 rest
      (set2 :: restR.1, restR.2)

/-- `executeImport` from src/App.tsx (lines 1285-1363): validates that all
four collections are present, regenerates every identity from the fresh
supply, resets event creation dates and step timestamps to the import time,
and merges (appends, with the tag list deduplicated through a `Set`) into
the in-memory state; for a regular database the regenerated items are also
inserted into the store and the merged tag list written. -/
def executeImport (s : AppState) (doc : ImportedDoc) (fresh : Nat → String)
    (now : Int) : Except Unit AppState :=
  match doc.events, doc.tags, doc.stepTemplates, doc.stepSetTemplates with
  | some iEvents, some iTags, some iStepT, some iStepSetT =>
      let eventsR := regenEvents fresh now 0 iEvents
      let stepTR := regenStepTemplates fresh eventsR.2 iStepT
      let stepSetTR := regenStepSetTemplates fresh stepTR.2 iStepSetT
      let newEvents := eventsR.1
      let newTags := iTags
      let mergedEvents := s.events ++ newEvents.map reviveEventDates
      let mergedTags := jsSetDedupStr (s.customTags ++ newTags)
      let mergedStepTemplates := s.stepTemplates ++ stepTR.1
      let mergedStepSetTemplates := s.stepSetTemplates ++ stepSetTR.1
      if s.activeDbName == TEMP_STORAGE_DB_NAME || s.dbError then
        Except.ok
          { s with events := mergedEvents, customTags := mergedTags,
                   stepTemplates := mergedStepTemplates,
                   stepSetTemplates := mergedStepSetTemplates }
      else
        let db := s.stores s.activeDbName
        Except.ok
          { s with
            stores := s.stores.update s.activeDbName
              { db with events := db.events ++ newEvents, tags := mergedTags,
                        stepTemplates := db.stepTemplates ++ stepTR.1,
                        stepSetTemplates := db.stepSetTemplates ++ stepSetTR.1 },
            events := mergedEvents, customTags := mergedTags,
            stepTemplates := mergedStepTemplates,
            stepSetTemplates := mergedStepSetTemplates }
  | _, _, _, _ => Except.error ()

/-- `getProgress` inside the `filteredEvents` sort (src/App.tsx lines
983-986): the percentage of completed steps, exactly 0 for a stepless event.
Rational arithmetic models the JavaScript number computation. -/
def getProgress (event : Event) : Rat :=
  if event.steps.length = 0 then 0
  else ((event.steps.filter (fun s => s.completed)).length : Rat)
        / (event.steps.length : Rat) * 100

/-- The source's comparator for the `progress-asc` sort order (src/App.tsx
line 992): `getProgress(a) - b.createdAt.getTime()`. -/
def progressAscComparator (a b : Event) : Rat :=
  getProgress a - (b.createdAt : Rat)

/-- The correct ascending-progress comparator in the spec's words
(`progressOf(a) - progressOf(b)`), stated from the spec for comparison with
`progressAscComparator`. -/
def specProgressAscComparator (a b : Event) : Rat :=
  getProgress a - getProgress b

/-! ## Helper lemmas -/

theorem World.update_self (w : World) (name : String) (db : StoredDb) :
    (w.update name db) name = db := by
  simp [World.update]

theorem World.update_other (w : World) (name n : String) (db : StoredDb)
    (h : n ≠ name) : (w.update name db) n = w n := by
  simp [World.update, h]

theorem reviveEventDates_eq (e : Event) : reviveEventDates e = e := by
  have h : e.steps.map (fun step => ({ step with timestamp := step.timestamp } : ProgressStep))
      = e.steps := by
    induction e.steps with
    | nil => rfl
    | cons s t ih => simp [List.map_cons, ih]
  simp [reviveEventDates, h]

theorem reviveEventDates_map (l : List Event) : l.map reviveEventDates = l := by
  induction l with
  | nil => rfl
  | cons e t ih => simp [List.map_cons, reviveEventDates_eq, ih]

theorem jsSetDedupStr_mem (xs : List String) (t : String) :
    t ∈ jsSetDedupStr xs ↔ t ∈ xs := by
  have key : ∀ (ys : List String) (acc : List String),
      t ∈ ys.foldl (fun acc x => if acc.contains x then acc else acc ++ [x]) acc
        ↔ t ∈ acc ∨ t ∈ ys := by
    intro ys
    induction ys with
    | nil => intro acc; simp
    | cons x rest ih =>
        intro acc
        by_cases hx : acc.contains x
        · have hxmem : x ∈ acc := by
            simpa using hx
          simp only [List.foldl_cons, if_pos hx, ih]
          constructor
          · rintro (h | h)
            · exact Or.inl h
            · exact Or.inr (List.mem_cons_of_mem _ h)
          · rintro (h | h)
            · exact Or.inl h
            · rcases List.mem_cons.mp h with rfl | h
              · exact Or.inl hxmem
              · exact Or.inr h
        · simp only [List.foldl_cons, if_neg hx, ih]
          constructor
          · rintro (h | h)
            · rcases List.mem_append.mp h with h | h
              · exact Or.inl h
              · simp at h
                subst h
                exact Or.inr (List.mem_cons_self _ _)
            · exact Or.inr (List.mem_cons_of_mem _ h)
          · rintro (h | h)
            · exact Or.inl (List.mem_append.mpr (Or.inl h))
            · rcases List.mem_cons.mp h with rfl | h
              · exact Or.inl (List.mem_append.mpr (Or.inr (by simp)))
              · exact Or.inr h
  exact (key xs []).trans (by simp)

/-! ## Claim theorems -/

/-- C2: when a sync flush fails, the pending-action queue is left exactly as
it was before the flush attempt (no action removed or reordered), the
degraded flag `dbError` is raised, and a failure status is reported; the
queue is never cleared on failure. The demo database is excluded because no
write is attempted for it, so its flush cannot fail. -/
theorem syncFailure_preserves_queue (s : AppState)
    (hdemo : s.activeDbName ≠ DEMO_DB_NAME) :
    (performSync s false).pendingActions = s.pendingActions ∧
    (performSync s false).dbError = true ∧
    (performSync s false).dbStatus = some StatusType.error := by
  have h1 : (s.activeDbName == DEMO_DB_NAME) = false := beq_eq_false_iff_ne.mpr hdemo
  simp [performSync, h1]

/-- Sample storage world for witnesses: every database is empty. -/
def sampleWorld : World := fun _ => emptyStoredDb

/-- Sample degraded state with one queued action, for witnesses. -/
def sampleState : AppState :=
  { activeDbName := "essenmelia-db-work", events := [], customTags := [],
    stepTemplates := [], stepSetTemplates := [],
    pendingActions := [PendingAction.addTag "x"], dbError := true, dbStatus := none,
    stores := sampleWorld, storedActiveDbName := none, confirmDiscardChanges := none,
    filterStatus := .all, filterTags := [], searchQuery := "" }

/-- Witness for C2 at a concrete degraded state. -/
theorem syncFailure_preserves_queue_witness :
    sampleState.activeDbName ≠ DEMO_DB_NAME ∧
    ((performSync sampleState false).pendingActions = sampleState.pendingActions ∧
     (performSync sampleState false).dbError = true ∧
     (performSync sampleState false).dbStatus = some StatusType.error) :=
  ⟨by decide, syncFailure_preserves_queue sampleState (by decide)⟩

/-- C3: when a sync flush fully succeeds, the system adopts the effective
snapshot — the fold of the persisted baseline events/tags of the active
database with the queue — as the new in-memory baseline, clears the queue,
clears the degraded flag, and reports a success status. The hypotheses state
that the in-memory snapshot over which the source folds coincides with the
persisted baseline, which holds whenever the guarded sync effect fires. -/
theorem syncSuccess_adopts_and_clears (s : AppState)
    (hE : (s.stores s.activeDbName).events = s.events)
    (hT : (s.stores s.activeDbName).tags = s.customTags) :
    (performSync s true).events =
      (applyPendingActions (s.stores s.activeDbName).events
        (s.stores s.activeDbName).tags s.pendingActions).1 ∧
    (performSync s true).customTags =
      (applyPendingActions (s.stores s.activeDbName).events
        (s.stores s.activeDbName).tags s.pendingActions).2 ∧
    (performSync s true).pendingActions = [] ∧
    (performSync s true).dbError = false ∧
    (performSync s true).dbStatus = some StatusType.success := by
  rw [hE, hT]
  by_cases h : (s.activeDbName == DEMO_DB_NAME) = true <;>
    simp [performSync, h]

/-- Witness for C3 at a concrete state whose in-memory snapshot equals the
persisted baseline. -/
theorem syncSuccess_adopts_and_clears_witness :
    ((sampleState.stores sampleState.activeDbName).events = sampleState.events) ∧
    ((sampleState.stores sampleState.activeDbName).tags = sampleState.customTags) ∧
    ((performSync sampleState true).events =
      (applyPendingActions (sampleState.stores sampleState.activeDbName).events
        (sampleState.stores sampleState.activeDbName).tags sampleState.pendingActions).1 ∧
     (performSync sampleState true).customTags =
      (applyPendingActions (sampleState.stores sampleState.activeDbName).events
        (sampleState.stores sampleState.activeDbName).tags sampleState.pendingActions).2 ∧
     (performSync sampleState true).pendingActions = [] ∧
     (performSync sampleState true).dbError = false ∧
     (performSync sampleState true).dbStatus = some StatusType.success) :=
  ⟨rfl, rfl, syncSuccess_adopts_and_clears sampleState rfl rfl⟩

/-- C4: enqueuing an update-event mutation for an event id after the queue
already contains a queued update-event for the same id leaves exactly one
update-event action for that id in the queue, and it is the fresh one with
the latest payload: filtering the resulting queue for update-events of this
id yields precisely the singleton of the new action. -/
theorem enqueueUpdateEvent_replaces (prev : List PendingAction) (e : Event)
    (img : Option ImagePayload)
    (hprev : ∃ a ∈ prev, isUpdateEventFor a e.id = true) :
    (enqueueUpdateEvent prev e img).filter (fun a => isUpdateEventFor a e.id)
      = [PendingAction.updateEvent e img] := by
  unfold enqueueUpdateEvent
  rw [List.filter_append]
  have h2 : (prev.filter (fun a => !(isUpdateEventFor a e.id))).filter
      (fun a => isUpdateEventFor a e.id) = [] := by
    induction prev with
    | nil => rfl
    | cons a t ih =>
        cases hb : isUpdateEventFor a e.id <;>
          simp [List.filter_cons, hb, ih]
  rw [h2]
  simp [List.filter_cons, isUpdateEventFor]

/-- A sample event with id `ev-1`, for witnesses. -/
def sampleEventA : Event :=
  { id := "ev-1", title := "Trip", description := "", createdAt := 0, steps := [],
    imageUrl := none, tags := none, hasOriginalImage := none }

/-- A second sample event with the same id `ev-1` but a different title. -/
def sampleEventB : Event :=
  { sampleEventA with title := "Trip v2" }

/-- Witness for C4: a queue already holding an update-event for `ev-1`. -/
theorem enqueueUpdateEvent_replaces_witness :
    (∃ a ∈ [PendingAction.updateEvent sampleEventA none],
        isUpdateEventFor a sampleEventB.id = true) ∧
    (enqueueUpdateEvent [PendingAction.updateEvent sampleEventA none] sampleEventB none).filter
        (fun a => isUpdateEventFor a sampleEventB.id)
      = [PendingAction.updateEvent sampleEventB none] :=
  ⟨⟨PendingAction.updateEvent sampleEventA none, by decide⟩,
   enqueueUpdateEvent_replaces [PendingAction.updateEvent sampleEventA none]
     sampleEventB none ⟨PendingAction.updateEvent sampleEventA none, by decide⟩⟩

/-- C5: in the pure fold, an add-event action prepends the new event unless
an event with that id already exists in the base, in which case the snapshot
is unchanged; hence replaying the same add-event action twice equals applying
it once. -/
theorem applyAddEvent_idempotent (baseEvents : List Event) (baseTags : List String)
    (e : Event) (img : Option Nat) :
    ((baseEvents.any (fun x => x.id == e.id)) = false →
      (applyPendingActions baseEvents baseTags [.addEvent e img]).1 = e :: baseEvents) ∧
    ((baseEvents.any (fun x => x.id == e.id)) = true →
      applyPendingActions baseEvents baseTags [.addEvent e img] = (baseEvents, baseTags)) ∧
    applyPendingActions baseEvents baseTags [.addEvent e img, .addEvent e img]
      = applyPendingActions baseEvents baseTags [.addEvent e img] := by
  refine ⟨?_, ?_, ?_⟩
  · intro h
    simp [applyPendingActions, applyOneAction, h]
  · intro h
    simp [applyPendingActions, applyOneAction, h]
  · by_cases h : (baseEvents.any (fun x => x.id == e.id)) = true
    · simp [applyPendingActions, applyOneAction, h]
    · have h2 : (baseEvents.any (fun x => x.id == e.id)) = false := by
        simpa using h
      simp [applyPendingActions, applyOneAction, h2]

/-- Witness for C5 at a concrete base (both branches exercised: the empty
base for the prepend side, a base already holding the id for the no-op
side is covered by the replay equation). -/
theorem applyAddEvent_idempotent_witness :
    (([] : List Event).any (fun x => x.id == sampleEventA.id) = false ∧
      (applyPendingActions [] ["t"] [.addEvent sampleEventA none]).1 = [sampleEventA]) ∧
    applyPendingActions [] ["t"] [.addEvent sampleEventA none, .addEvent sampleEventA none]
      = applyPendingActions [] ["t"] [.addEvent sampleEventA none] :=
  ⟨⟨by decide,
    (applyAddEvent_idempotent [] ["t"] sampleEventA none).1 (by decide)⟩,
   (applyAddEvent_idempotent [] ["t"] sampleEventA none).2.2⟩

/-- C9: the source's `progress-asc` comparator computes the malformed
expression `getProgress(a) - b.createdAt.getTime()` and is not equivalent to
the correct comparator `progressOf(a) - progressOf(b)`: there are events
`a`, `b` with strictly smaller progress for `a` where the comparator fails
to order `a` before `b` (a negative result is what places `a` first). -/
theorem progressAscComparator_malformed :
    (∃ a b : Event, progressAscComparator a b ≠ specProgressAscComparator a b) ∧
    (∃ a b : Event, getProgress a < getProgress b ∧ ¬ progressAscComparator a b < 0) := by
  constructor
  · exact ⟨{ id := "a", title := "", description := "", createdAt := 0, steps := [],
             imageUrl := none, tags := none, hasOriginalImage := none },
           { id := "b", title := "", description := "", createdAt := 0,
             steps := [{ id := "s", description := "", timestamp := 0, completed := true }],
             imageUrl := none, tags := none, hasOriginalImage := none },
           by
             simp [progressAscComparator, specProgressAscComparator, getProgress,
               List.filter]⟩
  · exact ⟨{ id := "a", title := "", description := "", createdAt := 0, steps := [],
             imageUrl := none, tags := none, hasOriginalImage := none },
           { id := "b", title := "", description := "", createdAt := 0,
             steps := [{ id := "s", description := "", timestamp := 0, completed := true }],
             imageUrl := none, tags := none, hasOriginalImage := none },
           by
             constructor <;>
               simp [progressAscComparator, getProgress, List.filter]⟩

/-- C6: applying a delete-tags action removes the given names from the
global tag collection and strips them from every event's tag set, in one
fold pass: afterwards no tag-collection entry and no event's tag set
contains a deleted name, all other tags keep their membership, and every
other event field is unchanged (stated pointwise through `List.Forall₂`,
which also forces equal lengths). -/
theorem applyDeleteTags_strips_everywhere (baseEvents : List Event)
    (baseTags : List String) (ts : List String) :
    (∀ t, t ∈ (applyPendingActions baseEvents baseTags [.deleteTags ts]).2
        ↔ (t ∈ baseTags ∧ t ∉ ts)) ∧
    (applyPendingActions baseEvents baseTags [.deleteTags ts]).1.length
      = baseEvents.length ∧
    List.Forall₂
      (fun e e2 =>
        e2.id = e.id ∧ e2.title = e.title ∧ e2.description = e.description ∧
        e2.createdAt = e.createdAt ∧ e2.steps = e.steps ∧
        e2.imageUrl = e.imageUrl ∧ e2.hasOriginalImage = e.hasOriginalImage ∧
        (∀ t, t ∈ e2.tags.getD [] ↔ (t ∈ e.tags.getD [] ∧ t ∉ ts)))
      baseEvents (applyPendingActions baseEvents baseTags [.deleteTags ts]).1 := by
  have happ : applyPendingActions baseEvents baseTags [.deleteTags ts]
      = (baseEvents.map (fun e =>
          { e with tags := e.tags.map (fun tgs => tgs.filter (fun t => !ts.contains t)) }),
         baseTags.filter (fun t => !ts.contains t)) := rfl
  rw [happ]
  refine ⟨?_, ?_, ?_⟩
  · intro t
    simp [List.mem_filter]
  · simp
  · rw [List.forall₂_map_right_iff, List.forall₂_same]
    intro e _
    refine ⟨rfl, rfl, rfl, rfl, rfl, rfl, rfl, ?_⟩
    intro t
    cases htags : e.tags with
    | none => simp
    | some tgs => simp [List.mem_filter]

/-- C8: in the steady state (the app has launched before, so the first-run
branch that force-selects the default database is not taken), the startup
selection follows exactly the spec's fixed precedence: the persisted active
name if it is still a valid discovered database, otherwise the default name
if present, otherwise the first discovered name, otherwise volatile mode
when no databases exist. The hypothesis records that the empty string is
never a discovered name (`discoverDatabases` only returns names starting
with the non-empty application prefix); JavaScript treats an empty persisted
preference as absent. -/
theorem startup_precedence_correct (detected : List String) (stored : Option String)
    (hpre : "" ∉ detected) :
    (startupChooseActiveDb true detected stored).activeDb
      = specStartupPrecedence detected stored := by
  have hfind : detected ≠ [] →
      ((detected.find? (fun name => name == DEFAULT_DB_NAME)).getD (detected.head?.getD ""))
        = specStartupFallback detected := by
    intro hne
    have hsome : ∀ l : List String, DEFAULT_DB_NAME ∈ l →
        l.find? (fun name => name == DEFAULT_DB_NAME) = some DEFAULT_DB_NAME := by
      intro l hl
      induction l with
      | nil => cases hl
      | cons a t ih =>
          by_cases ha : a = DEFAULT_DB_NAME
          · subst ha
            simp [List.find?]
          · have ht : DEFAULT_DB_NAME ∈ t := by
              rcases List.mem_cons.mp hl with h | h
              · exact absurd h.symm ha
              · exact h
            have hb : (a == DEFAULT_DB_NAME) = false := beq_eq_false_iff_ne.mpr ha
            simp [List.find?, hb, ih ht]
    by_cases hmem : DEFAULT_DB_NAME ∈ detected
    · rw [hsome detected hmem]
      simp [specStartupFallback, hmem]
    · have hnone : detected.find? (fun name => name == DEFAULT_DB_NAME) = none := by
        rw [List.find?_eq_none]
        intro x hx hbe
        exact hmem (eq_of_beq hbe ▸ hx)
      rw [hnone]
      cases detected with
      | nil => exact absurd rfl hne
      | cons d t =>
          simp [specStartupFallback, List.mem_cons] at hmem ⊢
          simp [hmem.1, fun h => hmem.2 h]
  cases hdet : detected with
  | nil =>
      cases stored with
      | none => simp [startupChooseActiveDb, specStartupPrecedence, specStartupFallback]
      | some s =>
          simp [startupChooseActiveDb, specStartupPrecedence, specStartupFallback]
  | cons d t =>
      have hne : detected ≠ [] := by rw [hdet]; exact List.cons_ne_nil d t
      rw [← hdet]
      have hempty : detected.isEmpty = false := by
        rw [hdet]; rfl
      cases stored with
      | none =>
          simp only [startupChooseActiveDb, Bool.not_true, Bool.false_eq_true,
            if_false, hempty]
          simp [specStartupPrecedence, hfind hne]
      | some s =>
          by_cases hmem : s ∈ detected
          · have hs : s ≠ "" := fun h => hpre (h ▸ hmem)
            have hc : detected.contains s = true := List.elem_eq_true_of_mem hmem
            have hbe : (s == "") = false := beq_eq_false_iff_ne.mpr hs
            simp only [startupChooseActiveDb, Bool.not_true, Bool.false_eq_true,
              if_false, hempty]
            simp [hbe, hc, specStartupPrecedence, hmem]
          · have hc : detected.contains s = false := by
              rcases hcontains : detected.contains s with _ | _
              · rfl
              · exact absurd (List.mem_of_elem_eq_true hcontains) hmem
            simp only [startupChooseActiveDb, Bool.not_true, Bool.false_eq_true,
              if_false, hempty]
            simp [hc, specStartupPrecedence, hmem, hfind hne]

/-- Witness for C8 at a concrete discovered set and persisted preference. -/
theorem startup_precedence_correct_witness :
    ("" ∉ ["essenmelia-db-work", "essenmelia-db-default"]) ∧
    (startupChooseActiveDb true ["essenmelia-db-work", "essenmelia-db-default"]
        (some "essenmelia-db-gone")).activeDb
      = specStartupPrecedence ["essenmelia-db-work", "essenmelia-db-default"]
          (some "essenmelia-db-gone") :=
  ⟨by decide,
   startup_precedence_correct ["essenmelia-db-work", "essenmelia-db-default"]
     (some "essenmelia-db-gone") (by decide)⟩

/-- Reduction of the degraded-switch merge path of `handleSwitchDb` at an
already-seeded real target: the whole resulting state spelled out. Shared by
the claims over this path. -/
theorem switchDb_merge_unfold (s : AppState) (newDbName : String)
    (now : Int)
    (hact : newDbName ≠ s.activeDbName)
    (hdemo : newDbName ≠ DEMO_DB_NAME)
    (htemp : newDbName ≠ TEMP_STORAGE_DB_NAME)
    (herr : s.dbError = true)
    (hq : s.pendingActions ≠ [])
    (hseed : (s.stores newDbName).seeded = true) :
    ((handleSwitchDb s newDbName now true).stores newDbName).events
      = (applyPendingActions (s.stores newDbName).events (s.stores newDbName).tags
          s.pendingActions).1 ∧
    ((handleSwitchDb s newDbName now true).stores newDbName).tags
      = (applyPendingActions (s.stores newDbName).events (s.stores newDbName).tags
          s.pendingActions).2 ∧
    (handleSwitchDb s newDbName now true).events
      = (applyPendingActions (s.stores newDbName).events (s.stores newDbName).tags
          s.pendingActions).1 ∧
    (handleSwitchDb s newDbName now true).customTags
      = (applyPendingActions (s.stores newDbName).events (s.stores newDbName).tags
          s.pendingActions).2 ∧
    (handleSwitchDb s newDbName now true).stepTemplates
      = (s.stores newDbName).stepTemplates ∧
    (handleSwitchDb s newDbName now true).stepSetTemplates
      = (s.stores newDbName).stepSetTemplates ∧
    ((handleSwitchDb s newDbName now true).stores newDbName).stepTemplates
      = (s.stores newDbName).stepTemplates ∧
    ((handleSwitchDb s newDbName now true).stores newDbName).stepSetTemplates
      = (s.stores newDbName).stepSetTemplates := by
  have h1 : (newDbName == s.activeDbName) = false := beq_eq_false_iff_ne.mpr hact
  have h2 : (newDbName == DEMO_DB_NAME) = false := beq_eq_false_iff_ne.mpr hdemo
  have h3 : (newDbName == TEMP_STORAGE_DB_NAME) = false := beq_eq_false_iff_ne.mpr htemp
  have h4 : s.pendingActions.isEmpty = false := by
    cases hp : s.pendingActions with
    | nil => exact absurd hp hq
    | cons a t => rfl
  have hload : loadData s.stores now newDbName
      = ({ events := (s.stores newDbName).events, tags := (s.stores newDbName).tags,
           stepTemplates := (s.stores newDbName).stepTemplates,
           stepSetTemplates := (s.stores newDbName).stepSetTemplates }, s.stores) := by
    simp [loadData, h2, hseed]
  have hswitch : handleSwitchDb s newDbName now true
      = (let targetDbData := (loadData s.stores now newDbName).1
         let folded := applyPendingActions (targetDbData.events.map reviveEventDates)
           targetDbData.tags s.pendingActions
         let w2 := saveDataToDb (loadData s.stores now newDbName).2 newDbName folded.1
           folded.2 targetDbData.stepTemplates targetDbData.stepSetTemplates
         { s with stores := w2,
                  events := folded.1, customTags := folded.2,
                  stepTemplates := targetDbData.stepTemplates,
                  stepSetTemplates := targetDbData.stepSetTemplates,
                  activeDbName := newDbName, storedActiveDbName := some newDbName,
                  dbError := false, pendingActions := [], dbStatus := some .success,
                  filterStatus := .all, filterTags := [], searchQuery := "" }) := by
    simp only [handleSwitchDb, h1, h2, h3, herr, h4, Bool.false_or, Bool.or_self,
      Bool.and_self, Bool.true_and, Bool.and_true, Bool.not_true, Bool.not_false,
      Bool.false_and, if_false, if_true, Bool.false_eq_true, Bool.true_eq_false,
      ite_false, ite_true]
  rw [hswitch]
  simp only [hload, reviveEventDates_map, saveDataToDb, h2, h3, Bool.or_self,
    Bool.false_eq_true, if_false, ite_false]
  refine ⟨?_, ?_, ?_, ?_, ?_, ?_, ?_, ?_⟩ <;>
    first
      | trivial
      | rw [World.update_self]

/-- C1: when the system is degraded (`dbError` records a prior load/sync
failure) and the pending queue is non-empty, switching to a real (non-demo,
non-volatile) already-seeded database loads the target's baseline snapshot,
folds the queue onto it, persists the folded result as the target's new
baseline, and adopts it: the target's persisted events afterwards equal the
fold of the target's original events with the queued actions, and likewise
for tags; the adopted in-memory snapshot is the same folded result. -/
theorem switchDb_merges_queue_into_target (s : AppState) (newDbName : String)
    (now : Int)
    (hact : newDbName ≠ s.activeDbName)
    (hdemo : newDbName ≠ DEMO_DB_NAME)
    (htemp : newDbName ≠ TEMP_STORAGE_DB_NAME)
    (herr : s.dbError = true)
    (hq : s.pendingActions ≠ [])
    (hseed : (s.stores newDbName).seeded = true) :
    ((handleSwitchDb s newDbName now true).stores newDbName).events
      = (applyPendingActions (s.stores newDbName).events (s.stores newDbName).tags
          s.pendingActions).1 ∧
    ((handleSwitchDb s newDbName now true).stores newDbName).tags
      = (applyPendingActions (s.stores newDbName).events (s.stores newDbName).tags
          s.pendingActions).2 ∧
    (handleSwitchDb s newDbName now true).events
      = (applyPendingActions (s.stores newDbName).events (s.stores newDbName).tags
          s.pendingActions).1 ∧
    (handleSwitchDb s newDbName now true).customTags
      = (applyPendingActions (s.stores newDbName).events (s.stores newDbName).tags
          s.pendingActions).2 := by
  have h := switchDb_merge_unfold s newDbName now hact hdemo htemp herr hq hseed
  exact ⟨h.1, h.2.1, h.2.2.1, h.2.2.2.1⟩

/-- A sample event with a fresh id `ev-2`, for witnesses. -/
def sampleEventC : Event :=
  { id := "ev-2", title := "New while degraded", description := "", createdAt := 5,
    steps := [], imageUrl := none, tags := none, hasOriginalImage := none }

/-- Stored contents of the merge target used by witnesses. -/
def mergeTargetDb : StoredDb :=
  { events := [sampleEventA], tags := ["old"],
    stepTemplates := [{ id := "t1", description := "weekly review" }],
    stepSetTemplates := [{ id := "set-9", name := "release", steps := [] }],
    seeded := true }

/-- World holding the seeded merge target, for witnesses. -/
def mergeWorld : World :=
  World.update (fun _ => emptyStoredDb) "essenmelia-db-work" mergeTargetDb

/-- A degraded state with two queued actions, about to switch to the seeded
target `essenmelia-db-work`, for witnesses. -/
def mergeState : AppState :=
  { activeDbName := DEFAULT_DB_NAME, events := [sampleEventC], customTags := ["fresh"],
    stepTemplates := [{ id := "loc-1", description := "edited while degraded" }],
    stepSetTemplates := [],
    pendingActions := [.addEvent sampleEventC none, .addTag "fresh"],
    dbError := true, dbStatus := none, stores := mergeWorld,
    storedActiveDbName := some DEFAULT_DB_NAME, confirmDiscardChanges := none,
    filterStatus := .all, filterTags := [], searchQuery := "" }

/-- Witness for C1: the two queued actions of a degraded session are folded
into the seeded target database. -/
theorem switchDb_merges_queue_into_target_witness :
    ("essenmelia-db-work" ≠ mergeState.activeDbName ∧
     "essenmelia-db-work" ≠ DEMO_DB_NAME ∧
     "essenmelia-db-work" ≠ TEMP_STORAGE_DB_NAME ∧
     mergeState.dbError = true ∧
     mergeState.pendingActions ≠ [] ∧
     (mergeState.stores "essenmelia-db-work").seeded = true) ∧
    (((handleSwitchDb mergeState "essenmelia-db-work" 7 true).stores
        "essenmelia-db-work").events
      = (applyPendingActions (mergeState.stores "essenmelia-db-work").events
          (mergeState.stores "essenmelia-db-work").tags
          mergeState.pendingActions).1 ∧
     ((handleSwitchDb mergeState "essenmelia-db-work" 7 true).stores
        "essenmelia-db-work").tags
      = (applyPendingActions (mergeState.stores "essenmelia-db-work").events
          (mergeState.stores "essenmelia-db-work").tags
          mergeState.pendingActions).2 ∧
     (handleSwitchDb mergeState "essenmelia-db-work" 7 true).events
      = (applyPendingActions (mergeState.stores "essenmelia-db-work").events
          (mergeState.stores "essenmelia-db-work").tags
          mergeState.pendingActions).1 ∧
     (handleSwitchDb mergeState "essenmelia-db-work" 7 true).customTags
      = (applyPendingActions (mergeState.stores "essenmelia-db-work").events
          (mergeState.stores "essenmelia-db-work").tags
          mergeState.pendingActions).2) :=
  ⟨⟨by decide, by decide, by decide, by decide, by decide, by decide⟩,
   switchDb_merges_queue_into_target mergeState "essenmelia-db-work" 7
     (by decide) (by decide) (by decide) (by decide) (by decide) (by decide)⟩

/-- C10: no pending-action variant can touch step templates or step-set
templates — the fold takes and produces only events and tags — so a sync
flush leaves the in-memory templates and every database's persisted
templates unchanged, and a degraded-mode merge on a switch to a seeded real
database carries the target's persisted templates through entirely
unchanged, both in memory and in the store (template edits made while
degraded are not part of the merged result). -/
theorem templates_frame_under_flush_and_merge (s : AppState) (saveOk : Bool)
    (newDbName : String) (now : Int)
    (hact : newDbName ≠ s.activeDbName)
    (hdemo : newDbName ≠ DEMO_DB_NAME)
    (htemp : newDbName ≠ TEMP_STORAGE_DB_NAME)
    (herr : s.dbError = true)
    (hq : s.pendingActions ≠ [])
    (hseed : (s.stores newDbName).seeded = true) :
    ((performSync s saveOk).stepTemplates = s.stepTemplates ∧
     (performSync s saveOk).stepSetTemplates = s.stepSetTemplates ∧
     (∀ name, ((performSync s saveOk).stores name).stepTemplates
          = (s.stores name).stepTemplates ∧
        ((performSync s saveOk).stores name).stepSetTemplates
          = (s.stores name).stepSetTemplates)) ∧
    ((handleSwitchDb s newDbName now true).stepTemplates
        = (s.stores newDbName).stepTemplates ∧
     (handleSwitchDb s newDbName now true).stepSetTemplates
        = (s.stores newDbName).stepSetTemplates ∧
     ((handleSwitchDb s newDbName now true).stores newDbName).stepTemplates
        = (s.stores newDbName).stepTemplates ∧
     ((handleSwitchDb s newDbName now true).stores newDbName).stepSetTemplates
        = (s.stores newDbName).stepSetTemplates) := by
  constructor
  · have hstores : ∀ name,
        ((performSync s saveOk).stores name).stepTemplates
          = (s.stores name).stepTemplates ∧
        ((performSync s saveOk).stores name).stepSetTemplates
          = (s.stores name).stepSetTemplates := by
      intro name
      by_cases hd : (s.activeDbName == DEMO_DB_NAME) = true
      · simp [performSync, hd]
      · cases saveOk with
        | false => simp [performSync, hd]
        | true =>
            simp only [performSync, hd, if_false, if_true, Bool.false_eq_true,
              ite_false, ite_true]
            by_cases hb : (name == s.activeDbName) = true
            · have : name = s.activeDbName := eq_of_beq hb
              subst this
              simp [syncWriteStores, World.update_self]
            · have hne : name ≠ s.activeDbName := fun h => hb (beq_iff_eq.mpr h)
              simp [syncWriteStores, World.update_other _ _ _ _ hne]
    refine ⟨?_, ?_, hstores⟩ <;>
      by_cases hd : (s.activeDbName == DEMO_DB_NAME) = true <;>
        cases saveOk <;> simp [performSync, hd]
  · have h := switchDb_merge_unfold s newDbName now hact hdemo htemp herr hq hseed
    exact ⟨h.2.2.2.2.1, h.2.2.2.2.2.1, h.2.2.2.2.2.2.1, h.2.2.2.2.2.2.2⟩

/-- Witness for C10 at the concrete degraded merge scenario. -/
theorem templates_frame_under_flush_and_merge_witness :
    ("essenmelia-db-work" ≠ mergeState.activeDbName ∧
     "essenmelia-db-work" ≠ DEMO_DB_NAME ∧
     "essenmelia-db-work" ≠ TEMP_STORAGE_DB_NAME ∧
     mergeState.dbError = true ∧
     mergeState.pendingActions ≠ [] ∧
     (mergeState.stores "essenmelia-db-work").seeded = true) ∧
    (((performSync mergeState false).stepTemplates = mergeState.stepTemplates ∧
      (performSync mergeState false).stepSetTemplates = mergeState.stepSetTemplates ∧
      (∀ name, ((performSync mergeState false).stores name).stepTemplates
           = (mergeState.stores name).stepTemplates ∧
         ((performSync mergeState false).stores name).stepSetTemplates
           = (mergeState.stores name).stepSetTemplates)) ∧
     ((handleSwitchDb mergeState "essenmelia-db-work" 7 true).stepTemplates
         = (mergeState.stores "essenmelia-db-work").stepTemplates ∧
      (handleSwitchDb mergeState "essenmelia-db-work" 7 true).stepSetTemplates
         = (mergeState.stores "essenmelia-db-work").stepSetTemplates ∧
      ((handleSwitchDb mergeState "essenmelia-db-work" 7 true).stores
          "essenmelia-db-work").stepTemplates
         = (mergeState.stores "essenmelia-db-work").stepTemplates ∧
      ((handleSwitchDb mergeState "essenmelia-db-work" 7 true).stores
          "essenmelia-db-work").stepSetTemplates
         = (mergeState.stores "essenmelia-db-work").stepSetTemplates)) :=
  ⟨⟨by decide, by decide, by decide, by decide, by decide, by decide⟩,
   templates_frame_under_flush_and_merge mergeState false "essenmelia-db-work" 7
     (by decide) (by decide) (by decide) (by decide) (by decide) (by decide)⟩

/-! ## Identifier-regeneration lemmas for the import path -/

/-- The contiguous index block `[n, n+1, ..., n+k-1]` of supply positions. -/
def idxFrom (n : Nat) : Nat → List Nat
  | 0 => []
  | k + 1 => n :: idxFrom (n + 1) k

/-- All identities carried by one event: its own id and its step ids. -/
def eventIds (e : Event) : List String := e.id :: e.steps.map (fun s => s.id)

/-- All identities carried by one step-set template. -/
def setTemplateIds (t : StepSetTemplate) : List String :=
  t.id :: t.steps.map (fun s => s.id)

/-- Number of identities regenerated for a list of imported events. -/
def totalEventIdCount (l : List Event) : Nat :=
  (l.map (fun e => 1 + e.steps.length)).sum

/-- Number of identities regenerated for a list of imported set templates. -/
def totalSetIdCount (l : List StepSetTemplate) : Nat :=
  (l.map (fun t => 1 + t.steps.length)).sum

theorem idxFrom_mem (k : Nat) : ∀ (n m : Nat), m ∈ idxFrom n k ↔ (n ≤ m ∧ m < n + k) := by
  induction k with
  | zero => intro n m; simp [idxFrom]
  | succ k ih =>
      intro n m
      simp only [idxFrom, List.mem_cons, ih]
      omega

theorem idxFrom_nodup (k : Nat) : ∀ n, (idxFrom n k).Nodup := by
  induction k with
  | zero => intro n; exact List.nodup_nil
  | succ k ih =>
      intro n
      refine List.nodup_cons.mpr ⟨?_, ih (n + 1)⟩
      intro hmem
      have := (idxFrom_mem k (n + 1) n).mp hmem
      omega

theorem idxFrom_append (m : Nat) : ∀ (n k : Nat),
    idxFrom n m ++ idxFrom (n + m) k = idxFrom n (m + k) := by
  induction m with
  | zero => intro n k; simp [idxFrom]
  | succ m ih =>
      intro n k
      have harith : n + (m + 1) = (n + 1) + m := by omega
      have harith2 : m + 1 + k = (m + k) + 1 := by omega
      rw [harith, harith2]
      simp only [idxFrom, List.cons_append, ih (n + 1) k]

theorem regenSteps_counter (fresh : Nat → String) (now : Int) (l : List ProgressStep) :
    ∀ n, (regenSteps fresh now n l).2 = n + l.length := by
  induction l with
  | nil => intro n; simp [regenSteps]
  | cons s t ih =>
      intro n
      simp only [regenSteps, ih (n + 1), List.length_cons]
      omega

theorem regenSteps_ids (fresh : Nat → String) (now : Int) (l : List ProgressStep) :
    ∀ n, (regenSteps fresh now n l).1.map (fun s => s.id) = (idxFrom n l.length).map fresh := by
  induction l with
  | nil => intro n; simp [regenSteps, idxFrom]
  | cons s t ih =>
      intro n
      simp only [regenSteps, List.map_cons, List.length_cons, idxFrom, ih (n + 1)]

theorem regenSteps_times (fresh : Nat → String) (now : Int) (l : List ProgressStep) :
    ∀ n, ∀ st ∈ (regenSteps fresh now n l).1, st.timestamp = now := by
  induction l with
  | nil => intro n st h; cases h
  | cons s t ih =>
      intro n st h
      rcases List.mem_cons.mp h with rfl | h
      · rfl
      · exact ih (n + 1) st h

theorem regenEvents_counter (fresh : Nat → String) (now : Int) (l : List Event) :
    ∀ n, (regenEvents fresh now n l).2 = n + totalEventIdCount l := by
  induction l with
  | nil => intro n; simp [regenEvents, totalEventIdCount]
  | cons e t ih =>
      intro n
      simp only [regenEvents, ih, regenSteps_counter, totalEventIdCount,
        List.map_cons, List.sum_cons]
      omega

theorem regenEvents_length (fresh : Nat → String) (now : Int) (l : List Event) :
    ∀ n, (regenEvents fresh now n l).1.length = l.length := by
  induction l with
  | nil => intro n; rfl
  | cons e t ih => intro n; simp [regenEvents, ih]

theorem regenEvents_ids (fresh : Nat → String) (now : Int) (l : List Event) :
    ∀ n, (regenEvents fresh now n l).1.flatMap eventIds
      = (idxFrom n (totalEventIdCount l)).map fresh := by
  induction l with
  | nil => intro n; simp [regenEvents, totalEventIdCount, idxFrom]
  | cons e t ih =>
      intro n
      have hcount : totalEventIdCount (e :: t)
          = (1 + e.steps.length) + totalEventIdCount t := by
        simp [totalEventIdCount]
      rw [hcount, ← idxFrom_append (1 + e.steps.length) n (totalEventIdCount t)]
      simp only [regenEvents, List.flatMap_cons, eventIds, List.map_append]
      have hsteps : ((regenSteps fresh now (n + 1) e.steps).1.map (fun s => s.id))
          = (idxFrom (n + 1) e.steps.length).map fresh := regenSteps_ids fresh now e.steps (n + 1)
      have hcounter : (regenSteps fresh now (n + 1) e.steps).2 = n + 1 + e.steps.length :=
        regenSteps_counter fresh now e.steps (n + 1)
      have hrest : (regenEvents fresh now (regenSteps fresh now (n + 1) e.steps).2 t).1.flatMap eventIds
          = (idxFrom (n + (1 + e.steps.length)) (totalEventIdCount t)).map fresh := by
        rw [hcounter]
        have : n + 1 + e.steps.length = n + (1 + e.steps.length) := by omega
        rw [this]
        exact ih (n + (1 + e.steps.length))
      have hblock : (idxFrom n (1 + e.steps.length)).map fresh
          = fresh n :: (idxFrom (n + 1) e.steps.length).map fresh := by
        have : (1 + e.steps.length) = e.steps.length + 1 := by omega
        rw [this]
        rfl
      rw [hsteps, hrest, hblock]

theorem regenEvents_dates (fresh : Nat → String) (now : Int) (l : List Event) :
    ∀ n, ∀ e2 ∈ (regenEvents fresh now n l).1,
      e2.createdAt = now ∧ ∀ st ∈ e2.steps, st.timestamp = now := by
  induction l with
  | nil => intro n e2 h; cases h
  | cons e t ih =>
      intro n e2 h
      rcases List.mem_cons.mp h with rfl | h
      · exact ⟨rfl, fun st hst => regenSteps_times fresh now e.steps (n + 1) st hst⟩
      · exact ih _ e2 h

theorem regenStepTemplates_counter (fresh : Nat → String) (l : List StepTemplate) :
    ∀ n, (regenStepTemplates fresh n l).2 = n + l.length := by
  induction l with
  | nil => intro n; simp [regenStepTemplates]
  | cons e t ih =>
      intro n
      simp only [regenStepTemplates, ih (n + 1), List.length_cons]
      omega

theorem regenStepTemplates_length (fresh : Nat → String) (l : List StepTemplate) :
    ∀ n, (regenStepTemplates fresh n l).1.length = l.length := by
  induction l with
  | nil => intro n; rfl
  | cons e t ih => intro n; simp [regenStepTemplates, ih]

theorem regenStepTemplates_ids (fresh : Nat → String) (l : List StepTemplate) :
    ∀ n, (regenStepTemplates fresh n l).1.map (fun t => t.id)
      = (idxFrom n l.length).map fresh := by
  induction l with
  | nil => intro n; simp [regenStepTemplates, idxFrom]
  | cons e t ih =>
      intro n
      simp only [regenStepTemplates, List.map_cons, List.length_cons, idxFrom, ih (n + 1)]

theorem regenSetSteps_counter (fresh : Nat → String) (l : List StepSetTemplateStep) :
    ∀ n, (regenSetSteps fresh n l).2 = n + l.length := by
  induction l with
  | nil => intro n; simp [regenSetSteps]
  | cons s t ih =>
      intro n
      simp only [regenSetSteps, ih (n + 1), List.length_cons]
      omega

theorem regenSetSteps_ids (fresh : Nat → String) (l : List StepSetTemplateStep) :
    ∀ n, (regenSetSteps fresh n l).1.map (fun s => s.id)
      = (idxFrom n l.length).map fresh := by
  induction l with
  | nil => intro n; simp [regenSetSteps, idxFrom]
  | cons s t ih =>
      intro n
      simp only [regenSetSteps, List.map_cons, List.length_cons, idxFrom, ih (n + 1)]

theorem regenStepSetTemplates_length (fresh : Nat → String) (l : List StepSetTemplate) :
    ∀ n, (regenStepSetTemplates fresh n l).1.length = l.length := by
  induction l with
  | nil => intro n; rfl
  | cons e t ih => intro n; simp [regenStepSetTemplates, ih]

theorem regenStepSetTemplates_ids (fresh : Nat → String) (l : List StepSetTemplate) :
    ∀ n, (regenStepSetTemplates fresh n l).1.flatMap setTemplateIds
      = (idxFrom n (totalSetIdCount l)).map fresh := by
  induction l with
  | nil => intro n; simp [regenStepSetTemplates, totalSetIdCount, idxFrom]
  | cons e t ih =>
      intro n
      have hcount : totalSetIdCount (e :: t)
          = (1 + e.steps.length) + totalSetIdCount t := by
        simp [totalSetIdCount]
      rw [hcount, ← idxFrom_append (1 + e.steps.length) n (totalSetIdCount t)]
      simp only [regenStepSetTemplates, List.flatMap_cons, setTemplateIds, List.map_append]
      have hsteps : ((regenSetSteps fresh (n + 1) e.steps).1.map (fun s => s.id))
          = (idxFrom (n + 1) e.steps.length).map fresh := regenSetSteps_ids fresh e.steps (n + 1)
      have hcounter : (regenSetSteps fresh (n + 1) e.steps).2 = n + 1 + e.steps.length :=
        regenSetSteps_counter fresh e.steps (n + 1)
      have hrest : (regenStepSetTemplates fresh (regenSetSteps fresh (n + 1) e.steps).2 t).1.flatMap setTemplateIds
          = (idxFrom (n + (1 + e.steps.length)) (totalSetIdCount t)).map fresh := by
        rw [hcounter]
        have : n + 1 + e.steps.length = n + (1 + e.steps.length) := by omega
        rw [this]
        exact ih (n + (1 + e.steps.length))
      have hblock : (idxFrom n (1 + e.steps.length)).map fresh
          = fresh n :: (idxFrom (n + 1) e.steps.length).map fresh := by
        have : (1 + e.steps.length) = e.steps.length + 1 := by omega
        rw [this]
        rfl
      rw [hsteps, hrest, hblock]

/-- A valid imported document always imports successfully, and both branches
of `executeImport` (temporary/degraded versus regular database) produce the
same merged in-memory collections. -/
theorem executeImport_ok (s0 : AppState) (iE : List Event) (iT : List String)
    (iST : List StepTemplate) (iSST : List StepSetTemplate)
    (fresh : Nat → String) (now : Int) :
    ∃ s1, executeImport s0 ⟨some iE, some iT, some iST, some iSST⟩ fresh now
        = Except.ok s1 ∧
      s1.events = s0.events ++ ((regenEvents fresh now 0 iE).1).map reviveEventDates ∧
      s1.customTags = jsSetDedupStr (s0.customTags ++ iT) ∧
      s1.stepTemplates = s0.stepTemplates
        ++ (regenStepTemplates fresh (regenEvents fresh now 0 iE).2 iST).1 ∧
      s1.stepSetTemplates = s0.stepSetTemplates
        ++ (regenStepSetTemplates fresh
              (regenStepTemplates fresh (regenEvents fresh now 0 iE).2 iST).2 iSST).1 := by
  by_cases h : (s0.activeDbName == TEMP_STORAGE_DB_NAME || s0.dbError) = true
  · refine ⟨{ s0 with
        events := s0.events ++ ((regenEvents fresh now 0 iE).1).map reviveEventDates,
        customTags := jsSetDedupStr (s0.customTags ++ iT),
        stepTemplates := s0.stepTemplates
          ++ (regenStepTemplates fresh (regenEvents fresh now 0 iE).2 iST).1,
        stepSetTemplates := s0.stepSetTemplates
          ++ (regenStepSetTemplates fresh
                (regenStepTemplates fresh (regenEvents fresh now 0 iE).2 iST).2 iSST).1 },
      ?_, rfl, rfl, rfl, rfl⟩
    simp only [executeImport, h, if_true, ite_true]
  · have h2 : (s0.activeDbName == TEMP_STORAGE_DB_NAME || s0.dbError) = false := by
      simpa using h
    refine ⟨{ s0 with
        stores := s0.stores.update s0.activeDbName
          { events := (s0.stores s0.activeDbName).events ++ (regenEvents fresh now 0 iE).1,
            tags := jsSetDedupStr (s0.customTags ++ iT),
            stepTemplates := (s0.stores s0.activeDbName).stepTemplates
              ++ (regenStepTemplates fresh (regenEvents fresh now 0 iE).2 iST).1,
            stepSetTemplates := (s0.stores s0.activeDbName).stepSetTemplates
              ++ (regenStepSetTemplates fresh
                    (regenStepTemplates fresh (regenEvents fresh now 0 iE).2 iST).2 iSST).1,
            seeded := (s0.stores s0.activeDbName).seeded },
        events := s0.events ++ ((regenEvents fresh now 0 iE).1).map reviveEventDates,
        customTags := jsSetDedupStr (s0.customTags ++ iT),
        stepTemplates := s0.stepTemplates
          ++ (regenStepTemplates fresh (regenEvents fresh now 0 iE).2 iST).1,
        stepSetTemplates := s0.stepSetTemplates
          ++ (regenStepSetTemplates fresh
                (regenStepTemplates fresh (regenEvents fresh now 0 iE).2 iST).2 iSST).1 },
      ?_, rfl, rfl, rfl, rfl⟩
    simp only [executeImport, h2, Bool.false_eq_true, if_false, ite_false]

/-- C7: importing an exported snapshot regenerates every identity (event,
step, step-template, step-set-template ids) from the fresh-id supply,
resets event creation dates and step timestamps to the import time, and
merges — appends to the existing collections and unions the tag set — into
the active database's state; with an injective supply the regenerated ids
are pairwise distinct, and against an empty target the merged event count
equals the original. -/
theorem export_import_roundtrip (sExp s0 : AppState) (fresh : Nat → String)
    (now now0 : Int)
    (hdemoE : sExp.activeDbName ≠ DEMO_DB_NAME)
    (hinj : Function.Injective fresh) :
    ∃ d s1,
      handleExportData sExp now0 = some d ∧
      executeImport s0 (toImportedDoc d) fresh now = Except.ok s1 ∧
      ∃ imp impT impSetT,
        s1.events = s0.events ++ imp ∧
        s1.stepTemplates = s0.stepTemplates ++ impT ∧
        s1.stepSetTemplates = s0.stepSetTemplates ++ impSetT ∧
        imp.length = d.data.events.length ∧
        impT.length = d.data.stepTemplates.length ∧
        impSetT.length = d.data.stepSetTemplates.length ∧
        (∀ e ∈ imp, e.createdAt = now ∧ ∀ st ∈ e.steps, st.timestamp = now) ∧
        (∀ t, t ∈ s1.customTags ↔ (t ∈ s0.customTags ∨ t ∈ d.data.tags)) ∧
        (∀ id ∈ imp.flatMap eventIds ++ impT.map (fun t => t.id)
            ++ impSetT.flatMap setTemplateIds, ∃ k, id = fresh k) ∧
        (imp.flatMap eventIds ++ impT.map (fun t => t.id)
          ++ impSetT.flatMap setTemplateIds).Nodup ∧
        (s0.events = [] → s1.events.length = d.data.events.length) := by
  have hdemo : (sExp.activeDbName == DEMO_DB_NAME) = false := beq_eq_false_iff_ne.mpr hdemoE
  have hexp : ∃ d, handleExportData sExp now0 = some d := by
    simp only [handleExportData, hdemo, Bool.false_and, Bool.false_eq_true, if_false,
      ite_false]
    exact ⟨_, rfl⟩
  obtain ⟨d, hd⟩ := hexp
  obtain ⟨s1, hok, hev, htags, hst, hsst⟩ :=
    executeImport_ok s0 d.data.events d.data.tags d.data.stepTemplates
      d.data.stepSetTemplates fresh now
  have himp : executeImport s0 (toImportedDoc d) fresh now = Except.ok s1 := hok
  refine ⟨d, s1, hd, himp,
    (regenEvents fresh now 0 d.data.events).1,
    (regenStepTemplates fresh (regenEvents fresh now 0 d.data.events).2
      d.data.stepTemplates).1,
    (regenStepSetTemplates fresh
      (regenStepTemplates fresh (regenEvents fresh now 0 d.data.events).2
        d.data.stepTemplates).2 d.data.stepSetTemplates).1,
    ?_, hst, hsst, ?_, ?_, ?_, ?_, ?_, ?_, ?_, ?_⟩
  · rw [hev, reviveEventDates_map]
  · exact regenEvents_length fresh now d.data.events 0
  · exact regenStepTemplates_length fresh d.data.stepTemplates _
  · exact regenStepSetTemplates_length fresh d.data.stepSetTemplates _
  · exact fun e he => regenEvents_dates fresh now d.data.events 0 e he
  · intro t
    rw [htags, jsSetDedupStr_mem, List.mem_append]
  · intro id hid
    rw [regenEvents_ids, regenStepTemplates_ids, regenStepSetTemplates_ids] at hid
    simp only [List.mem_append, List.mem_map] at hid
    rcases hid with (⟨k, _, hk⟩ | ⟨k, _, hk⟩) | ⟨k, _, hk⟩ <;> exact ⟨k, hk.symm⟩
  · rw [regenEvents_ids, regenStepTemplates_ids, regenStepSetTemplates_ids,
      regenEvents_counter, regenStepTemplates_counter,
      ← List.map_append, ← List.map_append, idxFrom_append]
    have harith : 0 + totalEventIdCount d.data.events + d.data.stepTemplates.length
        = 0 + (totalEventIdCount d.data.events + d.data.stepTemplates.length) := by
      omega
    rw [harith, idxFrom_append]
    exact (idxFrom_nodup _ 0).map hinj
  · intro h0
    rw [hev, reviveEventDates_map, h0]
    simp [regenEvents_length fresh now d.data.events 0]

/-- A concrete injective id supply for the import witness. -/
def witnessFresh : Nat → String := fun n => String.mk (List.replicate n 'x')

/-- Witness for C7: a concrete export/import round trip with an injective
supply. -/
theorem export_import_roundtrip_witness :
    sampleState.activeDbName ≠ DEMO_DB_NAME ∧
    Function.Injective witnessFresh ∧
    (∃ d s1,
      handleExportData sampleState 2 = some d ∧
      executeImport sampleState (toImportedDoc d) witnessFresh 3 = Except.ok s1 ∧
      ∃ imp impT impSetT,
        s1.events = sampleState.events ++ imp ∧
        s1.stepTemplates = sampleState.stepTemplates ++ impT ∧
        s1.stepSetTemplates = sampleState.stepSetTemplates ++ impSetT ∧
        imp.length = d.data.events.length ∧
        impT.length = d.data.stepTemplates.length ∧
        impSetT.length = d.data.stepSetTemplates.length ∧
        (∀ e ∈ imp, e.createdAt = 3 ∧ ∀ st ∈ e.steps, st.timestamp = 3) ∧
        (∀ t, t ∈ s1.customTags ↔ (t ∈ sampleState.customTags ∨ t ∈ d.data.tags)) ∧
        (∀ id ∈ imp.flatMap eventIds ++ impT.map (fun t => t.id)
            ++ impSetT.flatMap setTemplateIds, ∃ k, id = witnessFresh k) ∧
        (imp.flatMap eventIds ++ impT.map (fun t => t.id)
          ++ impSetT.flatMap setTemplateIds).Nodup ∧
        (sampleState.events = [] → s1.events.length = d.data.events.length)) := by
  have hinj : Function.Injective witnessFresh := by
    intro a b h
    have h2 : (witnessFresh a).data.length = (witnessFresh b).data.length := by rw [h]
    simpa [witnessFresh] using h2
  exact ⟨by decide, hinj,
    export_import_roundtrip sampleState sampleState witnessFresh 3 2 (by decide) hinj⟩

end Essenmelia
